import Mathlib

/-!
Verification of the frame-reconciliation and focus-navigation core of the
gooey immediate-mode GUI library.

Shallow embedding conventions:
* `float32` values are modelled as `ℚ`.  Every operation the verified code
  performs on them (add, sub, mul, div, compare) is exact on the rationals,
  and every concrete input used below is exactly representable.
* Go pointers (`*uiElementInstance`, `*Layout`) are modelled as indices
  (`ℕ`) into explicit stores, so Go pointer equality becomes index equality.
* `Vector2.DistanceTo` (which takes a square root) is only ever used by the
  code to *compare* distances; we model the comparison with squared
  distances, which induces the same ordering because `sqrt` is strictly
  monotone on nonnegative reals.
* `sort.Slice` is modelled by `List.insertionSort` with the corresponding
  (non-strict) comparison; the code only depends on the result being *some*
  permutation sorted by the comparator.
* A widget (`UIElement`) is modelled by its `highlightable()` answer plus
  the effect of its `draw` step on the instance's opaque `state` slot
  (pixel rendering, colors and input polling are external collaborators and
  are not part of the verified core; nested sub-placements are not needed by
  the properties below).
-/

attribute [local semireducible] Rat.add Rat.sub Rat.mul Rat.inv

/-- Rectangle from the source (`Rect` in the geometry file): position plus
width and height, in the layout's coordinate space. -/
structure GRect where
  x : ℚ
  y : ℚ
  w : ℚ
  h : ℚ
deriving DecidableEq, Repr

/-- Vector2 from the source, restricted to the two components used here. -/
structure GVec2 where
  x : ℚ
  y : ℚ
deriving DecidableEq, Repr

def GVec2.zero : GVec2 := ⟨0, 0⟩

def GVec2.invert (v : GVec2) : GVec2 := ⟨-v.x, -v.y⟩

/-- Squared distance between two points; stands in for
`Vector2.DistanceTo` wherever the source only compares distances. -/
def GVec2.distSqTo (v o : GVec2) : ℚ :=
  (v.x - o.x) * (v.x - o.x) + (v.y - o.y) * (v.y - o.y)

def GRect.zero : GRect := ⟨0, 0, 0, 0⟩

/-- Transcribes `Rect.IsZero`. -/
def GRect.isZero (r : GRect) : Bool :=
  r.x == 0 && r.y == 0 && r.w == 0 && r.h == 0

/-- Transcribes `Rect.Center`. -/
def GRect.center (r : GRect) : GVec2 :=
  ⟨r.x + r.w / 2, r.y + r.h / 2⟩

/-- Transcribes `Rect.Right`. -/
def GRect.right (r : GRect) : ℚ := r.x + r.w

/-- Transcribes `Rect.Bottom`. -/
def GRect.bottom (r : GRect) : ℚ := r.y + r.h

/-- Transcribes `Rect.MoveVec`. -/
def GRect.moveVec (r : GRect) (d : GVec2) : GRect :=
  { r with x := r.x + d.x, y := r.y + d.y }

/-- Transcribes `Rect.ScaleLeftTo`: move the left edge, keeping the right
edge fixed. -/
def GRect.scaleLeftTo (r : GRect) (x : ℚ) : GRect :=
  { r with x := x, w := (r.x + r.w) - x }

/-- Transcribes `Rect.ScaleRightTo`. -/
def GRect.scaleRightTo (r : GRect) (x : ℚ) : GRect :=
  { r with w := x - r.x }

/-- Transcribes `Rect.ScaleUpTo`: move the top edge, keeping the bottom
edge fixed. -/
def GRect.scaleUpTo (r : GRect) (y : ℚ) : GRect :=
  { r with y := y, h := (r.y + r.h) - y }

/-- Transcribes `Rect.ScaleDownTo`. -/
def GRect.scaleDownTo (r : GRect) (y : ℚ) : GRect :=
  { r with h := y - r.y }

/-- Transcribes `Rect.overlappingAxisX`: the (signed) length of the overlap
of the two horizontal extents. -/
def GRect.overlappingAxisX (r other : GRect) : ℚ :=
  min (r.right) (other.right) - max r.x other.x

/-- Transcribes `Rect.overlappingAxisY`. -/
def GRect.overlappingAxisY (r other : GRect) : ℚ :=
  min (r.bottom) (other.bottom) - max r.y other.y

/-- Transcribes the generic `clamp` helper from the utility file. -/
def gclamp (value lo hi : ℚ) : ℚ :=
  if value < lo then lo else if value > hi then hi else value

theorem gclamp_lower {value lo hi : ℚ} (h : lo ≤ hi) : lo ≤ gclamp value lo hi := by
  unfold gclamp
  split
  · exact le_refl lo
  · split
    · exact h
    · linarith [not_lt.mp (by assumption : ¬ value < lo)]

theorem gclamp_upper {value lo hi : ℚ} (h : lo ≤ hi) : gclamp value lo hi ≤ hi := by
  unfold gclamp
  split
  · exact h
  · split
    · exact le_refl hi
    · exact not_lt.mp (by assumption)

/-- Direction constants of `ArrangerGrid` (`ArrangeDirectionRow` /
`ArrangeDirectionColumn`). -/
inductive GridDirection
  | row
  | column
deriving DecidableEq, Repr

/-- Sentinel constant `ContainerSize` used by grid element sizes. -/
def ContainerSize : ℚ := -9999999999999

/-- Parameters of `ArrangerGrid` (current layout-engine version, with the
`ContainerSize`-based element sizes). -/
structure ArrangerGridM where
  outerPaddingLeft : ℚ := 0
  outerPaddingRight : ℚ := 0
  outerPaddingTop : ℚ := 0
  outerPaddingBottom : ℚ := 0
  elementPadding : GVec2 := GVec2.zero
  elementSize : GVec2 := GVec2.zero
  elementCount : ℤ := 0
  noCenterElements : Bool := false
  direction : GridDirection := .row
deriving DecidableEq, Repr

/-- Draw-call value threaded through one placement.  The inherited tint
(`Color`) is rendering-only and not modelled. -/
structure DrawCallM where
  elementIndex : ℤ := 0
  instanceRef : Option ℕ := none
  rect : GRect := GRect.zero
  spacingRect : GRect := GRect.zero
  influenceScrolling : Bool := false
  isHighlighted : Bool := false
  rectSet : Bool := false
deriving Repr

/-- Effective division count of the grid: the source clamps
`a.ElementCount <= 1` up to `1` before any use. -/
def ArrangerGridM.effCount (a : ArrangerGridM) : ℤ :=
  if a.elementCount ≤ 1 then 1 else a.elementCount

/-- Effective horizontal element size, transcribing the mutation of
`a.ElementSize.X`: an explicit positive size wins; otherwise the size is
derived from the (outer-padded) container rectangle, times the
`ContainerSize` fraction if the given size was negative. -/
def ArrangerGridM.effSizeX (a : ArrangerGridM) (rectW : ℚ) : ℚ :=
  if a.elementSize.x > 0 then a.elementSize.x
  else
    let cellWidth := if a.direction = .row then rectW / (a.effCount : ℚ) else rectW
    let containerMulti := if a.elementSize.x < 0 then a.elementSize.x / ContainerSize else 1
    cellWidth * containerMulti

/-- Effective vertical element size (mirror of `effSizeX`; the division by
the count happens for column-major grids). -/
def ArrangerGridM.effSizeY (a : ArrangerGridM) (rectH : ℚ) : ℚ :=
  if a.elementSize.y > 0 then a.elementSize.y
  else
    let cellHeight := if a.direction = .column then rectH / (a.effCount : ℚ) else rectH
    let containerMulti := if a.elementSize.y < 0 then a.elementSize.y / ContainerSize else 1
    cellHeight * containerMulti

/-- Transcribes `ArrangerGrid.Arrange` (the grid layout algorithm).
Integer division and modulus on the element index use truncated division
(`Int.tdiv` / `Int.tmod`), matching Go's `/` and `%` on `int`. -/
def ArrangerGridM.arrange (a : ArrangerGridM) (dc : DrawCallM) : DrawCallM :=
  let rect : GRect := { dc.rect with
    w := dc.rect.w - (a.outerPaddingLeft + a.outerPaddingRight),
    h := dc.rect.h - (a.outerPaddingTop + a.outerPaddingBottom) }
  let count := a.effCount
  let padX := if a.elementPadding.x < 0 then 0 else a.elementPadding.x
  let padY := if a.elementPadding.y < 0 then 0 else a.elementPadding.y
  let sizeX := a.effSizeX rect.w
  let sizeY := a.effSizeY rect.h
  let esx := sizeX + padX
  let esy := sizeY + padY
  let lx := if a.direction = .row then ((dc.elementIndex.tmod count : ℤ) : ℚ) * esx
            else ((dc.elementIndex.tdiv count : ℤ) : ℚ) * esx
  let ly := if a.direction = .row then ((dc.elementIndex.tdiv count : ℤ) : ℚ) * esy
            else ((dc.elementIndex.tmod count : ℤ) : ℚ) * esy
  let spacing : GRect :=
    (GRect.mk (rect.x + lx) (rect.y + ly) (sizeX + a.outerPaddingRight)
        (sizeY + a.outerPaddingBottom)).scaleLeftTo
      (rect.x - a.outerPaddingLeft) |>.scaleUpTo (rect.y - a.outerPaddingTop)
  -- center elements when their combined extent is smaller than the rectangle
  let lx := if !a.noCenterElements && a.direction = .row then
      let totalWidth := (count : ℚ) * esx - padX
      if totalWidth < rect.w then lx + (rect.w - totalWidth) / 2 else lx
    else lx
  let ly := if !a.noCenterElements && a.direction = .column then
      let totalHeight := (count : ℚ) * esy - padY
      if totalHeight < rect.h then ly + (rect.h - totalHeight) / 2 else ly
    else ly
  let elementRect : GRect :=
    ⟨rect.x + lx + a.outerPaddingLeft, rect.y + ly + a.outerPaddingTop, sizeX, sizeY⟩
  { dc with rect := elementRect, spacingRect := spacing }

/-- Arranger strategies attached to a Layout (`ArrangerFull` with its four
paddings, and `ArrangerGrid`).  Custom callback arrangers are not needed by
the verified properties. -/
inductive ArrangerM
  | full (paddingLeft paddingRight paddingTop paddingBottom : ℚ)
  | grid (g : ArrangerGridM)
deriving Repr

/-- Transcribes `Arranger.Arrange` dispatch: `ArrangerFull.Arrange`
subtracts the paddings; the grid case runs the grid algorithm. -/
def ArrangerM.arrange : ArrangerM → DrawCallM → DrawCallM
  | .full pl pr pt pb, dc =>
      { dc with rect := ⟨dc.rect.x + pl, dc.rect.y + pt,
                         dc.rect.w - (pr + pl), dc.rect.h - (pb + pt)⟩ }
  | .grid g, dc => g.arrange dc

/-- Opaque per-widget state, instantiated at `ButtonState` from the button
widget file (the widget kind the verified scenarios use). -/
structure BState where
  pressedState : ℤ := 0
  disabled : Bool := false
  toggled : Bool := false
  toggleable : Bool := false
deriving DecidableEq, Repr

/-- Model of a `UIElement`: its `highlightable()` answer plus the effect of
its `draw` step on the instance's opaque state slot (`none` models a nil
state). -/
structure WidgetM where
  hl : Bool
  drawStateF : Option BState → Option BState

instance : Inhabited WidgetM := ⟨⟨false, fun s => s⟩⟩

/-- Draw-step state effect of `UIButton.draw` as far as the state slot's
lifecycle is concerned: a nil state is lazily replaced by a fresh
`ButtonState`, an existing state object is kept and mutated in place (the
mutation depends on pointer/input collaborators; `f` stands for it). -/
def buttonDrawState (f : BState → BState) : Option BState → Option BState
  | none => some (f {})
  | some s => some (f s)

/-- Persistent instance record `uiElementInstance`.  The `layout`
back-reference and the record itself are modelled as indices; `data` (an
unused opaque user slot in the verified scenarios) is omitted. -/
structure ElemInst where
  id : String := ""
  currentRect : GRect := GRect.zero
  prevRect : GRect := GRect.zero
  layoutIdx : ℕ := 0
  drawable : WidgetM := default
  state : Option BState := none
  wasDrawn : Bool := false

instance : Inhabited ElemInst := ⟨{}⟩

/-- Insertion-ordered registry `sortedElementInstanceMap`: the Go map is an
association list with unique keys (keys are appended only on first add),
`order` is the insertion-order key list. -/
structure SortedMapM where
  data : List (String × ℕ) := []
  order : List String := []
deriving Repr, DecidableEq

/-- Map lookup `s.Data[id]`. -/
def SortedMapM.lookup (s : SortedMapM) (k : String) : Option ℕ :=
  (s.data.find? (fun p => p.1 == k)).map (fun p => p.2)

/-- Transcribes `sortedElementInstanceMap.Contains`. -/
def SortedMapM.containsKey (s : SortedMapM) (k : String) : Bool :=
  (s.lookup k).isSome

/-- Transcribes `sortedElementInstanceMap.Add` together with the allocation
of the new `uiElementInstance`: on a hit the existing record is returned
and nothing changes; on a miss a zeroed record carrying the id is appended
to the store and the key is appended to both the map and the order list. -/
def smAdd (s : SortedMapM) (store : List ElemInst) (k : String) :
    SortedMapM × List ElemInst × ℕ :=
  match s.lookup k with
  | some r => (s, store, r)
  | none =>
      let r := store.length
      ({ data := s.data ++ [(k, r)], order := s.order ++ [k] },
       store ++ [{ id := k }], r)

/-- Per-region container `Layout` (current version: four outer values plus
auto-scroll state, custom highlighting order, extent bookkeeping and the
per-layout registry). -/
structure LayoutM where
  id : String := ""
  rect : GRect := GRect.zero
  highlightingLocked : Bool := false
  autoScrollSpeed : ℚ := 0
  autoScrollAcceleration : ℚ := 0
  autoScrollCurrentSpeed : GVec2 := GVec2.zero
  customHighlightingOrder : List String := []
  committedMaxRect : GRect := GRect.zero
  currentMaxRect : GRect := GRect.zero
  elementIndex : ℤ := 0
  arranger : ArrangerM := .full 0 0 0 0
  offset : GVec2 := GVec2.zero
  existing : SortedMapM := {}

instance : Inhabited LayoutM := ⟨{}⟩

/-- Process-wide mutable state of the core: the layout and instance stores
(references are list indices), the visible-layout list, the global focus
and input-modality state, and the id-reuse bookkeeping.  `panicMsg`
records a raised usage panic together with its message.  Real-time input
debouncing (`time.Now` based) and the pixel buffers are outside the model. -/
structure GState where
  layouts : List LayoutM := []
  visible : List ℕ := []
  insts : List ElemInst := []
  highlighted : Option ℕ := none
  usingMouse : Bool := true
  queuedInput : ℤ := 0
  noDefaultHighlightOption : Bool := false
  uiidReusePolicy : ℤ := 0
  idsInUse : List (Option String) := []
  panicMsg : Option String := none
  begun : Bool := false

/-- Dereference an instance pointer. -/
def instAt (st : GState) (r : ℕ) : ElemInst := st.insts.getD r default

/-- Dereference a layout pointer. -/
def layoutAt (st : GState) (li : ℕ) : LayoutM := st.layouts.getD li default

def modifyInst (st : GState) (r : ℕ) (f : ElemInst → ElemInst) : GState :=
  { st with insts := st.insts.set r (f (instAt st r)) }

def modifyLayout (st : GState) (li : ℕ) (f : LayoutM → LayoutM) : GState :=
  { st with layouts := st.layouts.set li (f (layoutAt st li)) }

/-- Transcribes `Layout.isVisible`: pointer membership in `visibleLayouts`. -/
def layoutVisible (st : GState) (li : ℕ) : Bool :=
  st.visible.contains li

/-- Queued-input constants from the navigation file. -/
def queuedInputRight : ℤ := 1

def queuedInputLeft : ℤ := -1

def queuedInputUp : ℤ := 2

def queuedInputDown : ℤ := -2

def queuedInputPrev : ℤ := 3

def queuedInputNext : ℤ := -3

def queuedInputSelect : ℤ := 4

/-- Transcribes `Layout.itemRect`: run the Arranger, translate by the
scroll offset, default the spacing rectangle, translate it too. -/
def LayoutM.itemRectM (l : LayoutM) (dc : DrawCallM) : DrawCallM :=
  let dc := l.arranger.arrange dc
  let dc := { dc with rect := dc.rect.moveVec l.offset }
  let dc := if dc.spacingRect.isZero then { dc with spacingRect := dc.rect } else dc
  { dc with spacingRect := dc.spacingRect.moveVec l.offset }

/-- Transcribes the max-extent folding at the end of `Layout.add`
(`emptyRect` is sampled once; each edge is then expanded outward only,
each comparison seeing the partially updated rectangle). -/
def updateMaxRect (st : GState) (li : ℕ) (spacing : GRect) : GState :=
  modifyLayout st li (fun l =>
    let emptyRect := l.currentMaxRect.isZero
    let m := l.currentMaxRect
    let m := if emptyRect || spacing.x < m.x then m.scaleLeftTo spacing.x else m
    let m := if emptyRect || spacing.right > m.right then m.scaleRightTo spacing.right else m
    let m := if emptyRect || spacing.y < m.y then m.scaleUpTo spacing.y else m
    let m := if emptyRect || spacing.bottom > m.bottom then m.scaleDownTo spacing.bottom else m
    { l with currentMaxRect := m })

/-- Transcribes `Layout.add`, the placement/reconciliation step: get or
create the record, stamp the draw call, mark the record placed, resolve the
rectangle through the Arranger when not already resolved, run the widget's
draw step (modelled by its state effect), commit the rectangle, fold the
spacing rectangle into the running extent, advance the sequence counter.
Returns the updated state, the final draw call and the instance reference. -/
def layoutAdd (st : GState) (li : ℕ) (k : String) (w : WidgetM) (dc : DrawCallM) :
    GState × DrawCallM × ℕ :=
  let l := layoutAt st li
  let res := smAdd l.existing st.insts k
  let ex := res.1
  let store := res.2.1
  let r := res.2.2
  let st := { st with insts := store, layouts := st.layouts.set li { l with existing := ex } }
  let st := modifyInst st r (fun e => { e with layoutIdx := li })
  let dc := { dc with elementIndex := l.elementIndex, instanceRef := some r,
                      isHighlighted := st.highlighted == some r }
  let st := modifyInst st r
    (fun e => { e with drawable := w, wasDrawn := true, prevRect := e.currentRect })
  let dc := if !dc.rectSet then
      let dc := { dc with rect := l.rect }
      let dc := l.itemRectM dc
      { dc with rectSet := true }
    else dc
  let st := modifyInst st r (fun e => { e with state := w.drawStateF e.state })
  let st := modifyInst st r (fun e => { e with currentRect := dc.rect })
  let st := if dc.influenceScrolling then updateMaxRect st li dc.spacingRect else st
  let st := modifyLayout st li (fun l2 => { l2 with elementIndex := l2.elementIndex + 1 })
  (st, dc, r)

/-- Transcribes `Layout.newDefaultDrawcall` (the tint defaults to white and
is not modelled). -/
def newDefaultDrawcall : DrawCallM := { influenceScrolling := true }

/-- Transcribes `UIButton.AddTo`: build a default draw call and place the
widget.  Note that in this version of the code no id-reuse check
(`internalStateAccessOnce`) is performed anywhere on this path. -/
def uiButtonAddTo (st : GState) (li : ℕ) (k : String) (w : WidgetM) : GState × ℕ :=
  let res := layoutAdd st li k w newDefaultDrawcall
  (res.1, res.2.2)

/-- Transcribes `NewLayout`.  When a layout with the id already exists it
is re-declared for the new frame: its arranger is reset to a default
`ArrangerFull`, it is appended to the visible list and `Layout.Reset` zeroes
the sequence counter and both extent rectangles.  Note that, in this
version, nothing on this path (nor anywhere else) clears the instances'
`wasDrawn` flags; an older revision of the same function cleared them here.
The duplicate-visible check only logs. -/
def newLayoutM (st : GState) (k : String) (x y w h : ℚ) : GState × ℕ :=
  match st.layouts.findIdx? (fun l => l.id == k) with
  | some li =>
      let st := modifyLayout st li (fun l =>
        { l with arranger := .full 0 0 0 0, elementIndex := 0,
                 committedMaxRect := GRect.zero, currentMaxRect := GRect.zero })
      ({ st with visible := st.visible ++ [li] }, li)
  | none =>
      let li := st.layouts.length
      let l : LayoutM := { id := k, rect := ⟨x, y, w, h⟩,
                           autoScrollSpeed := 8, autoScrollAcceleration := 1/2 }
      ({ st with layouts := st.layouts ++ [l], visible := st.visible ++ [li] }, li)

/-- Transcribes `internalStateAccessOnce`: scan `IDsInUse` for the id and,
under the default panic policy (`UIIDReusePolicy = 0`), raise a usage panic
whose message names the id (the warn policy logs, the none policy does
nothing); then record the id as used.  The guard rejecting a `UIElement`
used as an id is a Go type test; ids here are strings.  This function is
defined in the navigation file but, in this version of the code, is never
invoked by any widget placement path. -/
def internalStateAccessOnce (st : GState) (k : String) : GState :=
  let st :=
    if st.idsInUse.any (fun i => i == some k) then
      if st.uiidReusePolicy == 0 then
        { st with panicMsg := some ("gooey: UI element ID [" ++ k ++
            "] is used multiple times. Each UI element should have a unique ID.") }
      else st
    else st
  { st with idsInUse := st.idsInUse ++ [some k] }

/-- Y-axis auto-scroll step for one layout from the frame-begin code: runs
only when the committed extent exceeds the layout's height; accelerates or
decelerates the scroll velocity depending on where the focused rectangle
`elem` sits relative to the tolerance band, clamps the velocity to the top
speed, applies it to the offset, clamps the offset to the extent bounds and
zeroes the velocity when the offset ends up unchanged. -/
def autoScrollAxisY (l : LayoutM) (elem : GRect) : LayoutM :=
  if l.committedMaxRect.h > l.rect.h then
    let centerScreenY := l.rect.y + l.rect.h / 2
    let edgeSlop := l.rect.h / 3
    let downTooFar := elem.bottom > centerScreenY + edgeSlop
    let upTooFar := elem.y < centerScreenY - edgeSlop
    let downTooFar := if elem.h > edgeSlop then elem.bottom > l.rect.y + l.rect.h else downTooFar
    let upTooFar := if elem.h > edgeSlop then elem.y < l.rect.y else upTooFar
    let sp := l.autoScrollCurrentSpeed.y
    let sp := if downTooFar then sp - l.autoScrollAcceleration
      else if upTooFar then sp + l.autoScrollAcceleration
      else if sp ≥ l.autoScrollAcceleration then sp - l.autoScrollAcceleration
      else if sp ≤ -l.autoScrollAcceleration then sp + l.autoScrollAcceleration
      else 0
    let sp := gclamp sp (-l.autoScrollSpeed) l.autoScrollSpeed
    let og := l.offset.y
    let off := gclamp (l.offset.y + sp) (-(l.committedMaxRect.h - l.rect.h)) 0
    let sp := if off == og then 0 else sp
    { l with autoScrollCurrentSpeed := { l.autoScrollCurrentSpeed with y := sp },
             offset := { l.offset with y := off } }
  else l

/-- X-axis auto-scroll step (mirror of `autoScrollAxisY`; the only textual
difference in the source is that the big-element override compares the
width with `>=` instead of `>`). -/
def autoScrollAxisX (l : LayoutM) (elem : GRect) : LayoutM :=
  if l.committedMaxRect.w > l.rect.w then
    let centerScreenX := l.rect.x + l.rect.w / 2
    let edgeSlop := l.rect.w / 3
    let rightTooFar := elem.right > centerScreenX + edgeSlop
    let leftTooFar := elem.x < centerScreenX - edgeSlop
    let rightTooFar := if elem.w ≥ edgeSlop then elem.right > l.rect.x + l.rect.w else rightTooFar
    let leftTooFar := if elem.w ≥ edgeSlop then elem.x < l.rect.x else leftTooFar
    let sp := l.autoScrollCurrentSpeed.x
    let sp := if rightTooFar then sp - l.autoScrollAcceleration
      else if leftTooFar then sp + l.autoScrollAcceleration
      else if sp ≥ l.autoScrollAcceleration then sp - l.autoScrollAcceleration
      else if sp ≤ -l.autoScrollAcceleration then sp + l.autoScrollAcceleration
      else 0
    let sp := gclamp sp (-l.autoScrollSpeed) l.autoScrollSpeed
    let og := l.offset.x
    let off := gclamp (l.offset.x + sp) (-(l.committedMaxRect.w - l.rect.w)) 0
    let sp := if off == og then 0 else sp
    { l with autoScrollCurrentSpeed := { l.autoScrollCurrentSpeed with x := sp },
             offset := { l.offset with x := off } }
  else l

/-- Frame-begin processing of one visible layout: commit the running extent
(translated back by the scroll offset), clear it, and, when this layout
owns the focused instance and auto-scrolling is enabled, run both axis
controllers.  In the source both axes accelerate before either applies its
offset; the two halves touch disjoint components, so composing the two
self-contained axis steps is equivalent. -/
def beginFrameLayout (st : GState) (li : ℕ) : GState :=
  let st := modifyLayout st li (fun l =>
    { l with committedMaxRect := l.currentMaxRect.moveVec l.offset.invert,
             currentMaxRect := GRect.zero })
  let l := layoutAt st li
  let hasHl := l.existing.data.any (fun p => some p.2 == st.highlighted)
  if hasHl && l.autoScrollSpeed > 0 then
    let elem := match st.highlighted with
      | some r => (instAt st r).currentRect
      | none => GRect.zero
    modifyLayout st li (fun l2 => autoScrollAxisX (autoScrollAxisY l2 elem) elem)
  else st

/-- Frame-begin state transition (`Begin`), restricted to the modelled
state: the extent/auto-scroll pass over the visible layouts (only run while
an instance is focused), then the reset of the visible-layout list and the
in-place zeroing of the used-id list.  The input-debounce block consumes
wall-clock time and the raw input snapshot and is outside the model; the
double-`Begin` usage error simply leaves the state unchanged here. -/
def beginFrameCore (st : GState) : GState :=
  if st.begun then st
  else
    let st := { st with begun := true }
    let st :=
      if st.highlighted.isSome then st.visible.foldl beginFrameLayout st
      else st
    { st with visible := [], idsInUse := st.idsInUse.map (fun _ => none) }

/-- Eligibility test used throughout `End`:
`element.drawable.highlightable() && element.wasDrawn`. -/
def eligible (st : GState) (r : ℕ) : Bool :=
  (instAt st r).drawable.hl && (instAt st r).wasDrawn

/-- Custom-order scan of the default pick in `End`: the source iterates the
whole `CustomHighlightingOrder`, assigning every eligible entry without
breaking, so the *last* eligible entry wins. -/
def pickFromCustomOrder (st : GState) (l : LayoutM) : Option ℕ :=
  l.customHighlightingOrder.foldl (fun acc k =>
    match l.existing.lookup k with
    | some r => if eligible st r then some r else acc
    | none => acc) none

/-- Insertion-order fallback of the default pick in `End`: a `ForEach` that
stops at the first eligible instance. -/
def pickFromInsertionOrder (st : GState) (l : LayoutM) : Option ℕ :=
  l.existing.order.findSome? (fun k =>
    match l.existing.lookup k with
    | some r => if eligible st r then some r else none
    | none => none)

/-- Default pick of `End`: scan the visible layouts in order; within a
layout prefer the custom-order scan (when a custom order is set), then the
insertion-order fallback; stop at the first layout that produced a pick. -/
def defaultPickCode (st : GState) : Option ℕ :=
  st.visible.findSome? (fun li =>
    let l := layoutAt st li
    let fromCustom :=
      if l.customHighlightingOrder.length > 0 then pickFromCustomOrder st l else none
    match fromCustom with
    | some r => some r
    | none => pickFromInsertionOrder st l)

/-- Candidate collection of `End`: all eligible instances of one visible
layout, in registry insertion order. -/
def layoutEligibleRefs (st : GState) (li : ℕ) : List ℕ :=
  (layoutAt st li).existing.order.filterMap (fun k =>
    match (layoutAt st li).existing.lookup k with
    | some r => if eligible st r then some r else none
    | none => none)

/-- Candidate collection of `End` (`visibleHighlightableElements`): all
eligible instances of all visible layouts. -/
def visibleHighlightableElements (st : GState) : List ℕ :=
  (st.visible.map (layoutEligibleRefs st)).flatten

/-- Squared distance from an instance's rectangle center to a target point
(stands in for `DistanceTo` in the sort comparator). -/
def dSq (st : GState) (t : GVec2) (r : ℕ) : ℚ :=
  ((instAt st r).currentRect.center).distSqTo t

/-- Transcribes the in-place `sortByDistance` (`sort.Slice` by center
distance to the target point). -/
def sortByDistance (st : GState) (t : GVec2) (l : List ℕ) : List ℕ :=
  l.insertionSort (fun a b => dSq st t a ≤ dSq st t b)

/-- Reading-order key `ir.X + ir.Y*100000` of `sortByXY`. -/
def xyKey (st : GState) (r : ℕ) : ℚ :=
  (instAt st r).currentRect.x + (instAt st r).currentRect.y * 100000

/-- Transcribes the in-place `sortByXY`. -/
def sortByXY (st : GState) (l : List ℕ) : List ℕ :=
  l.insertionSort (fun a b => xyKey st a ≤ xyKey st b)

/-- Target id of the explicit-custom-order navigation step: find the
focused id in the order (first occurrence), then step forward (right,
down, next) or backward (left, up, prev) with wraparound; an empty string
means no target. -/
def customNavTarget (l : LayoutM) (q : ℤ) (hid : String) : String :=
  match l.customHighlightingOrder.findIdx? (fun e => e == hid) with
  | some i =>
      if q == queuedInputRight || q == queuedInputDown || q == queuedInputNext then
        if i < l.customHighlightingOrder.length - 1 then l.customHighlightingOrder.getD (i + 1) ""
        else l.customHighlightingOrder.getD 0 ""
      else if q == queuedInputLeft || q == queuedInputUp || q == queuedInputPrev then
        if i > 0 then l.customHighlightingOrder.getD (i - 1) ""
        else l.customHighlightingOrder.getD (l.customHighlightingOrder.length - 1) ""
      else ""
  | none => ""

/-- Point used by the right-direction spatial search: the focused center
pushed one unit past the focused rectangle's right edge. -/
def rightTarget (cur : GRect) : GVec2 := { cur.center with x := cur.right + 1 }

/-- Primary right-direction scan: the first element of the distance-sorted
candidate list, skipping the focused instance, whose center lies strictly
past the focused rectangle's right edge. -/
def primaryRight (st : GState) (f : ℕ) (cur : GRect) (sorted : List ℕ) : Option ℕ :=
  sorted.find? (fun e => e != f && decide ((instAt st e).currentRect.center.x > cur.right))

/-- Right-direction fallback: among candidates overlapping the focused
rectangle on the Y axis (skipping the focused instance), keep the one with
the smallest X. -/
def fallbackRight (st : GState) (f : ℕ) (cur : GRect) (l : List ℕ) : Option ℕ :=
  l.foldl (fun acc e =>
    if e = f then acc
    else if (instAt st e).currentRect.overlappingAxisY cur > 0 then
      match acc with
      | none => some e
      | some c =>
          if (instAt st e).currentRect.x < (instAt st c).currentRect.x then some e else acc
    else acc) none

/-- Primary left-direction scan (center strictly left of the focused
rectangle's left edge). -/
def primaryLeft (st : GState) (f : ℕ) (cur : GRect) (sorted : List ℕ) : Option ℕ :=
  sorted.find? (fun e => e != f && decide ((instAt st e).currentRect.center.x < cur.x))

/-- Left-direction fallback: Y-overlapping candidate with the largest X. -/
def fallbackLeft (st : GState) (f : ℕ) (cur : GRect) (l : List ℕ) : Option ℕ :=
  l.foldl (fun acc e =>
    if e = f then acc
    else if (instAt st e).currentRect.overlappingAxisY cur > 0 then
      match acc with
      | none => some e
      | some c =>
          if (instAt st e).currentRect.x > (instAt st c).currentRect.x then some e else acc
    else acc) none

/-- Primary up-direction scan (center strictly above the focused
rectangle's top edge). -/
def primaryUp (st : GState) (f : ℕ) (cur : GRect) (sorted : List ℕ) : Option ℕ :=
  sorted.find? (fun e => e != f && decide ((instAt st e).currentRect.center.y < cur.y))

/-- Up-direction fallback: X-overlapping candidate with the largest Y. -/
def fallbackUp (st : GState) (f : ℕ) (cur : GRect) (l : List ℕ) : Option ℕ :=
  l.foldl (fun acc e =>
    if e = f then acc
    else if (instAt st e).currentRect.overlappingAxisX cur > 0 then
      match acc with
      | none => some e
      | some c =>
          if (instAt st e).currentRect.y > (instAt st c).currentRect.y then some e else acc
    else acc) none

/-- Primary down-direction scan (center strictly below the focused
rectangle's bottom edge). -/
def primaryDown (st : GState) (f : ℕ) (cur : GRect) (sorted : List ℕ) : Option ℕ :=
  sorted.find? (fun e => e != f && decide ((instAt st e).currentRect.center.y > cur.bottom))

/-- Down-direction fallback: X-overlapping candidate with the smallest Y. -/
def fallbackDown (st : GState) (f : ℕ) (cur : GRect) (l : List ℕ) : Option ℕ :=
  l.foldl (fun acc e =>
    if e = f then acc
    else if (instAt st e).currentRect.overlappingAxisX cur > 0 then
      match acc with
      | none => some e
      | some c =>
          if (instAt st e).currentRect.y < (instAt st c).currentRect.y then some e else acc
    else acc) none

/-- Ordinal step of `End`: in the reading-order-sorted candidate list, step
one past (or before) the focused instance, wrapping around. -/
def ordinalPick (sorted : List ℕ) (f : ℕ) (forward : Bool) : Option ℕ :=
  sorted.enum.foldl (fun acc p =>
    if p.2 = f then
      if forward then
        if p.1 < sorted.length - 1 then some (sorted.getD (p.1 + 1) 0)
        else some (sorted.getD 0 0)
      else
        if p.1 > 0 then some (sorted.getD (p.1 - 1) 0)
        else some (sorted.getD (sorted.length - 1) 0)
    else acc) none

/-- Spatial / ordinal `switch queuedInput` block of `End`, producing the
`closest` candidate (if any). -/
def navClosest (st : GState) (f : ℕ) (cur : GRect) (cands : List ℕ) : Option ℕ :=
  if st.queuedInput == queuedInputRight then
    let sorted := sortByDistance st (rightTarget cur) cands
    match primaryRight st f cur sorted with
    | some c => some c
    | none => fallbackRight st f cur sorted
  else if st.queuedInput == queuedInputLeft then
    let sorted := sortByDistance st { cur.center with x := cur.x - 1 } cands
    match primaryLeft st f cur sorted with
    | some c => some c
    | none => fallbackLeft st f cur sorted
  else if st.queuedInput == queuedInputUp then
    let sorted := sortByDistance st { cur.center with y := cur.y - 1 } cands
    match primaryUp st f cur sorted with
    | some c => some c
    | none => fallbackUp st f cur sorted
  else if st.queuedInput == queuedInputDown then
    let sorted := sortByDistance st { cur.center with y := cur.bottom + 1 } cands
    match primaryDown st f cur sorted with
    | some c => some c
    | none => fallbackDown st f cur sorted
  else if st.queuedInput == queuedInputNext then
    ordinalPick (sortByXY st cands) f true
  else if st.queuedInput == queuedInputPrev then
    ordinalPick (sortByXY st cands) f false
  else none

/-- Condition of the first branch of `End`: no focused instance, or its
layout is not visible, or it was not placed this frame (note: whether it is
still highlightable is *not* part of this condition). -/
def focusLost (st : GState) : Bool :=
  match st.highlighted with
  | none => true
  | some f => !(layoutVisible st (instAt st f).layoutIdx) || !(instAt st f).wasDrawn

/-- Frame-end navigation (`End`): either pick a default focus, or move the
focus by the custom order / spatial search / ordinal step; when nothing
qualifies the focus is left unchanged. -/
def endNav (st0 : GState) : GState :=
  let st := { st0 with begun := false }
  if focusLost st && (st.queuedInput != 0 || !st.noDefaultHighlightOption) && !st.usingMouse then
    match defaultPickCode st with
    | some r => { st with highlighted := some r }
    | none => st
  else
    match st.highlighted with
    | some f =>
        if st.queuedInput != queuedInputSelect then
          let cur := (instAt st f).currentRect
          let cands := visibleHighlightableElements st
          let l := layoutAt st (instAt st f).layoutIdx
          let viaCustom : Option ℕ :=
            if l.customHighlightingOrder.length > 0 then
              let targetID := customNavTarget l st.queuedInput (instAt st f).id
              if targetID != "" then cands.find? (fun e => (instAt st e).id == targetID)
              else none
            else none
          match viaCustom with
          | some e => { st with highlighted := some e }
          | none =>
              match navClosest st f cur cands with
              | some c => { st with highlighted := some c }
              | none => st
        else st
    | none => st

/-- Transcribes `Layout.SetArranger`: install the arranger and reset the
extent rectangles and the sequence counter. -/
def setArrangerM (st : GState) (li : ℕ) (a : ArrangerM) : GState :=
  modifyLayout st li (fun l =>
    { l with arranger := a, committedMaxRect := GRect.zero,
             currentMaxRect := GRect.zero, elementIndex := 0 })

/-- Specification-level description of the default pick as the code
actually behaves (for comparison with `endNav`): scanning the visible
layouts in their visible order, pick the instance of the *last* identity in
the layout's explicit navigation order that is currently placed and
highlightable; otherwise the first placed, highlightable instance in
registry insertion order.  Deliberately phrased independently (reverse scan
and key search) rather than by reusing the transcribed fold. -/
def defaultPickSpec (st : GState) : Option ℕ :=
  st.visible.findSome? (fun li =>
    let l := layoutAt st li
    let lastCustom := l.customHighlightingOrder.reverse.findSome? (fun k =>
      match l.existing.lookup k with
      | some r => if eligible st r then some r else none
      | none => none)
    match lastCustom with
    | some r => some r
    | none =>
        (l.existing.order.find? (fun k =>
          match l.existing.lookup k with
          | some r => eligible st r
          | none => false)).bind l.existing.lookup)

/-- Enabled button widget used by the concrete scenarios: highlightable,
and its draw step lazily creates the state and applies the input-free part
of the button transition (an unhovered, unpressed frame). -/
def plainButton : WidgetM :=
  ⟨true, buttonDrawState (fun s => { s with pressedState := 0, toggleable := false })⟩

/-- Button widget whose draw step keeps an existing state entirely
unchanged, to observe state persistence across frames. -/
def keepStateButton : WidgetM := ⟨true, buttonDrawState (fun s => s)⟩

/-- Scenario constructor: an instance record as it stands after having been
placed (drawn) with the given rectangle in the given layout. -/
def mkPlacedInst (k : String) (r : GRect) (li : ℕ) : ElemInst :=
  { id := k, currentRect := r, layoutIdx := li, drawable := plainButton, wasDrawn := true }

/-- Mid-frame state for the identity round-trip witness: the registry of
layout 0 already knows identity `a` from the previous frame, whose state
carries a toggled flag set by the widget back then. -/
def c1State : GState :=
  { layouts := [ { id := "L", rect := ⟨0, 0, 100, 100⟩,
                   existing := { data := [("a", 0)], order := ["a"] } } ],
    visible := [0],
    insts := [ { id := "a", currentRect := ⟨0, 0, 100, 100⟩, layoutIdx := 0,
                 drawable := keepStateButton, state := some { toggled := true },
                 wasDrawn := false } ] }

/-- Two-button grid scenario: a fresh layout of width 200 and height `H`
with a row-major grid arranger of division count 2 and container-derived
element size, placing buttons `A` then `B`. -/
def c2state (H : ℚ) : GState :=
  let st := (newLayoutM {} "L" 0 0 200 H).1
  let st := setArrangerM st 0 (.grid { elementCount := 2 })
  let st := (uiButtonAddTo st 0 "A" plainButton).1
  (uiButtonAddTo st 0 "B" plainButton).1

/-- Grid parameters of the cross-axis fallback counterexample: division
count 2, row-major, both element sizes zero (container-derived). -/
def c9grid : ArrangerGridM := { elementCount := 2 }

/-- Draw call of the cross-axis fallback counterexample: first element of a
container of width 200 and height 60. -/
def c9dc : DrawCallM := { rect := ⟨0, 0, 200, 60⟩ }

/-- Auto-scroll counterexample layout: the extent exceeds the height by 10,
the offset already sits at -5, and the accumulated downward velocity is at
-15/2 (one acceleration step away from the top speed 8). -/
def c4Layout : LayoutM :=
  { rect := ⟨0, 0, 50, 100⟩, committedMaxRect := ⟨0, 0, 50, 110⟩,
    autoScrollSpeed := 8, autoScrollAcceleration := 1/2,
    autoScrollCurrentSpeed := ⟨0, -15/2⟩, offset := ⟨0, -5⟩ }

/-- Focused rectangle of the auto-scroll counterexample: far below the
layout, so the controller keeps accelerating downward. -/
def c4Elem : GRect := ⟨0, 500, 10, 10⟩

/-- Frame 1 of the was-placed-flag scenario: declare layout `L` and place
button `a` in it. -/
def c6Frame1 : GState :=
  (uiButtonAddTo (newLayoutM {} "L" 0 0 100 100).1 0 "a" plainButton).1

/-- Frame 2 of the was-placed-flag scenario: end frame 1, begin frame 2,
re-declare layout `L`, and do not place `a` again. -/
def c6Frame2 : GState :=
  (newLayoutM (beginFrameCore (endNav c6Frame1)) "L" 0 0 100 100).1

/-- Frame 1 of the identity-reuse scenario: place button `x` twice against
the same layout in a single frame, under the default (panic) policy. -/
def c7Frame1 : GState :=
  (uiButtonAddTo
    ((uiButtonAddTo (newLayoutM {} "L" 0 0 100 100).1 0 "x" plainButton).1)
    0 "x" plainButton).1

/-- Frame 2 of the identity-reuse scenario: the next frame places `x`
exactly once. -/
def c7Frame2 : GState × ℕ :=
  uiButtonAddTo (newLayoutM (beginFrameCore (endNav c7Frame1)) "L" 0 0 100 100).1
    0 "x" plainButton

/-- Three side-by-side buttons `A`, `B`, `C` (all placed, highlightable,
mutually overlapping on the vertical axis), no custom order, focus on the
rightmost `C`, with a queued right input in keyboard modality. -/
def c8State : GState :=
  { layouts := [ { id := "L", rect := ⟨0, 0, 300, 40⟩,
                   existing := { data := [("A", 0), ("B", 1), ("C", 2)],
                                 order := ["A", "B", "C"] } } ],
    visible := [0],
    insts := [ mkPlacedInst "A" ⟨0, 0, 100, 40⟩ 0, mkPlacedInst "B" ⟨100, 0, 100, 40⟩ 0,
               mkPlacedInst "C" ⟨200, 0, 100, 40⟩ 0 ],
    highlighted := some 2, usingMouse := false, queuedInput := 1 }

/-- Default-pick counterexample state: one visible layout with explicit
navigation order `[a, b]`, both placed and highlightable, nothing focused,
keyboard modality, no queued input, default pick enabled. -/
def c5State : GState :=
  { layouts := [ { id := "L", rect := ⟨0, 0, 300, 40⟩,
                   customHighlightingOrder := ["a", "b"],
                   existing := { data := [("a", 0), ("b", 1)], order := ["a", "b"] } } ],
    visible := [0],
    insts := [ mkPlacedInst "a" ⟨0, 0, 100, 40⟩ 0, mkPlacedInst "b" ⟨100, 0, 100, 40⟩ 0 ],
    highlighted := none, usingMouse := false, queuedInput := 0 }

/-- Right-navigation witness state: three side-by-side buttons with focus
on the leftmost `A` and a queued right input. -/
def c3State : GState :=
  { layouts := [ { id := "L", rect := ⟨0, 0, 300, 40⟩,
                   existing := { data := [("A", 0), ("B", 1), ("C", 2)],
                                 order := ["A", "B", "C"] } } ],
    visible := [0],
    insts := [ mkPlacedInst "A" ⟨0, 0, 100, 40⟩ 0, mkPlacedInst "B" ⟨100, 0, 100, 40⟩ 0,
               mkPlacedInst "C" ⟨200, 0, 100, 40⟩ 0 ],
    highlighted := some 0, usingMouse := false, queuedInput := 1 }

/-- Navigation-invariant witness state: three side-by-side buttons with
focus on `C` and a queued right input (the navigation will move focus). -/
def c10State : GState :=
  { layouts := [ { id := "L", rect := ⟨0, 0, 300, 40⟩,
                   existing := { data := [("A", 0), ("B", 1), ("C", 2)],
                                 order := ["A", "B", "C"] } } ],
    visible := [0],
    insts := [ mkPlacedInst "A" ⟨0, 0, 100, 40⟩ 0, mkPlacedInst "B" ⟨100, 0, 100, 40⟩ 0,
               mkPlacedInst "C" ⟨200, 0, 100, 40⟩ 0 ],
    highlighted := some 2, usingMouse := false, queuedInput := 1 }

/-- Disabled button widget: not highlightable. -/
def disabledButton : WidgetM :=
  ⟨false, buttonDrawState (fun s => { s with pressedState := 0, toggleable := false })⟩

/-- Second default-pick counterexample state: the focused instance 0 is
placed and visible but no longer highlightable (its button became
disabled), while instance 1 is placed and highlightable; keyboard modality,
no queued input, default pick enabled. -/
def c5FocusState : GState :=
  { layouts := [ { id := "L", rect := ⟨0, 0, 300, 40⟩,
                   existing := { data := [("a", 0), ("b", 1)], order := ["a", "b"] } } ],
    visible := [0],
    insts := [ { id := "a", currentRect := ⟨0, 0, 100, 40⟩, layoutIdx := 0,
                 drawable := disabledButton, wasDrawn := true },
               mkPlacedInst "b" ⟨100, 0, 100, 40⟩ 0 ],
    highlighted := some 0, usingMouse := false, queuedInput := 0 }

theorem modifyInst_layouts (st : GState) (r : ℕ) (f : ElemInst → ElemInst) :
    (modifyInst st r f).layouts = st.layouts := rfl

theorem modifyInst_insts_length (st : GState) (r : ℕ) (f : ElemInst → ElemInst) :
    (modifyInst st r f).insts.length = st.insts.length := by
  simp [modifyInst]

theorem instAt_modifyInst_self {st : GState} {r : ℕ} (h : r < st.insts.length)
    (f : ElemInst → ElemInst) : instAt (modifyInst st r f) r = f (instAt st r) := by
  simp [instAt, modifyInst, h]

theorem beginFrameLayout_insts (s : GState) (li : ℕ) :
    (beginFrameLayout s li).insts = s.insts := by
  unfold beginFrameLayout
  dsimp only
  split
  · rfl
  · rfl

theorem foldl_beginFrameLayout_insts (l : List ℕ) (s : GState) :
    (l.foldl beginFrameLayout s).insts = s.insts := by
  induction l generalizing s with
  | nil => rfl
  | cons a t ih => simpa [List.foldl, beginFrameLayout_insts] using ih (beginFrameLayout s a)

theorem beginFrameCore_insts (st : GState) : (beginFrameCore st).insts = st.insts := by
  unfold beginFrameCore
  split
  · rfl
  · dsimp only
    split
    · simp [foldl_beginFrameLayout_insts]
    · rfl

theorem newLayoutM_insts (st : GState) (k : String) (x y w h : ℚ) :
    ((newLayoutM st k x y w h).1).insts = st.insts := by
  unfold newLayoutM
  split <;> simp [modifyLayout]

theorem smAdd_hit {s : SortedMapM} {store : List ElemInst} {k : String} {r : ℕ}
    (h : s.lookup k = some r) : smAdd s store k = (s, store, r) := by
  unfold smAdd
  rw [h]

theorem updateMaxRect_insts (c : Bool) (st : GState) (li : ℕ) (sp : GRect) :
    (if c then updateMaxRect st li sp else st).insts = st.insts := by
  split <;> rfl

theorem instAt_updateMaxRect_if (c : Bool) (st : GState) (li : ℕ) (sp : GRect) (r : ℕ) :
    instAt (if c then updateMaxRect st li sp else st) r = instAt st r := by
  split <;> rfl

theorem instAt_modifyLayout (st : GState) (li : ℕ) (f : LayoutM → LayoutM) (r : ℕ) :
    instAt (modifyLayout st li f) r = instAt st r := rfl

theorem layoutAt_modifyInst (st : GState) (r : ℕ) (f : ElemInst → ElemInst) (li : ℕ) :
    layoutAt (modifyInst st r f) li = layoutAt st li := rfl

theorem layoutAt_modifyLayout_self {st : GState} {li : ℕ} (h : li < st.layouts.length)
    (f : LayoutM → LayoutM) : layoutAt (modifyLayout st li f) li = f (layoutAt st li) := by
  simp [layoutAt, modifyLayout, h]

theorem updateMaxRect_if_layouts_length (c : Bool) (st : GState) (li : ℕ) (sp : GRect) :
    (if c then updateMaxRect st li sp else st).layouts.length = st.layouts.length := by
  split <;> simp [updateMaxRect, modifyLayout]

theorem updateMaxRect_if_existing {st : GState} {li : ℕ} (h : li < st.layouts.length)
    (c : Bool) (sp : GRect) :
    (layoutAt (if c then updateMaxRect st li sp else st) li).existing
      = (layoutAt st li).existing := by
  split
  · rw [updateMaxRect, layoutAt_modifyLayout_self h]
  · rfl

theorem layoutAdd_existing_id {st : GState} {li : ℕ} {k : String} {w : WidgetM}
    {dc : DrawCallM} {r : ℕ}
    (hk : (layoutAt st li).existing.lookup k = some r)
    (hr : r < st.insts.length) (hli : li < st.layouts.length) :
    (layoutAdd st li k w dc).2.2 = r ∧
    ((layoutAdd st li k w dc).1).insts.length = st.insts.length ∧
    (instAt (layoutAdd st li k w dc).1 r).state = w.drawStateF ((instAt st r).state) ∧
    (layoutAt ((layoutAdd st li k w dc).1) li).existing.order
      = (layoutAt st li).existing.order := by
  unfold layoutAdd
  dsimp only
  rw [smAdd_hit hk]
  dsimp only
  refine ⟨rfl, ?_, ?_, ?_⟩
  · simp [updateMaxRect_insts, modifyLayout, modifyInst]
  · simp only [instAt_modifyLayout, instAt_updateMaxRect_if]
    rw [instAt_modifyInst_self (by simp [modifyInst, hr])]
    rw [instAt_modifyInst_self (by simp [modifyInst, hr])]
    rw [instAt_modifyInst_self (by simp [modifyInst, hr])]
    rw [instAt_modifyInst_self (by simp [modifyInst, hr])]
    rfl
  · rw [layoutAt_modifyLayout_self
      (by simp [updateMaxRect_if_layouts_length, modifyInst, modifyLayout, hli])]
    dsimp only
    rw [updateMaxRect_if_existing (by simp [modifyInst, hli])]
    simp only [layoutAt_modifyInst]
    simp [layoutAt, hli]

/-- C1: placing a widget under the same identity against the same Layout in
frame N and again in frame N+1 yields the same instance record in both
frames.  Conjuncts: (1) when the identity is known, the registry's
get-or-create returns the existing record and changes neither the map, the
store, nor the insertion order; (2) re-declaring the Layout for a new frame
never touches the instance store; (3) neither does the frame-begin pass;
(4) a placement of a known identity returns the same record reference,
allocates nothing, leaves the insertion order intact, and the record's
opaque state evolves only through the widget's own draw step (it is not
reset by the redeclaration). -/
theorem c1_identity_roundtrip :
    (∀ (s : SortedMapM) (store : List ElemInst) (k : String) (r : ℕ),
        s.lookup k = some r → smAdd s store k = (s, store, r)) ∧
    (∀ (st : GState) (k : String) (x y w h : ℚ),
        ((newLayoutM st k x y w h).1).insts = st.insts) ∧
    (∀ st : GState, (beginFrameCore st).insts = st.insts) ∧
    (∀ (st : GState) (li : ℕ) (k : String) (w : WidgetM) (dc : DrawCallM) (r : ℕ),
        (layoutAt st li).existing.lookup k = some r →
        r < st.insts.length → li < st.layouts.length →
        (layoutAdd st li k w dc).2.2 = r ∧
        ((layoutAdd st li k w dc).1).insts.length = st.insts.length ∧
        (instAt (layoutAdd st li k w dc).1 r).state = w.drawStateF ((instAt st r).state) ∧
        (layoutAt ((layoutAdd st li k w dc).1) li).existing.order
          = (layoutAt st li).existing.order) :=
  ⟨fun _ _ _ _ h => smAdd_hit h,
   newLayoutM_insts,
   beginFrameCore_insts,
   fun _ _ _ _ _ _ hk hr hli => layoutAdd_existing_id hk hr hli⟩

/-- Witness for `c1_identity_roundtrip` at a concrete frame-N+1 placement
of the already-known identity `a`: the same record 0 comes back, nothing is
allocated, and the toggled state set in frame N survives the
redeclaration. -/
theorem c1_identity_roundtrip_witness :
    smAdd { data := [("a", 0)], order := ["a"] } [{ id := "a" }] "a"
      = ({ data := [("a", 0)], order := ["a"] }, [{ id := "a" }], 0) ∧
    (layoutAdd c1State 0 "a" keepStateButton newDefaultDrawcall).2.2 = 0 ∧
    ((layoutAdd c1State 0 "a" keepStateButton newDefaultDrawcall).1).insts.length = 1 ∧
    (instAt (layoutAdd c1State 0 "a" keepStateButton newDefaultDrawcall).1 0).state
      = some { toggled := true } := by
  have h4 := c1_identity_roundtrip.2.2.2 c1State 0 "a" keepStateButton newDefaultDrawcall 0
    (by decide) (by decide) (by decide)
  refine ⟨c1_identity_roundtrip.1 _ _ "a" 0 (by decide), h4.1, h4.2.1, ?_⟩
  rw [h4.2.2.1]
  decide

/-- C2: on a Layout with rectangle `{0,0,200,H}` and a grid Arranger with
division count 2, row-major direction, container-derived element size, no
padding and zero scroll offset, placing `A` then `B` (sequence indices 0
and 1) resolves rectangle `{0,0,100,H}` for `A` and `{100,0,100,H}` for
`B`, for every height `H`. -/
theorem c2_two_button_row : ∀ H : ℚ,
    (instAt (c2state H) 0).currentRect = ⟨0, 0, 100, H⟩ ∧
    (instAt (c2state H) 1).currentRect = ⟨100, 0, 100, H⟩ := by
  intro H
  constructor <;>
    · simp [c2state, uiButtonAddTo, layoutAdd, newLayoutM, setArrangerM, modifyLayout,
        modifyInst, instAt, layoutAt, smAdd, SortedMapM.lookup, newDefaultDrawcall,
        LayoutM.itemRectM, ArrangerM.arrange, ArrangerGridM.arrange, ArrangerGridM.effCount,
        ArrangerGridM.effSizeX, ArrangerGridM.effSizeY, GRect.isZero, GRect.moveVec,
        GRect.scaleLeftTo, GRect.scaleUpTo, GRect.right, GRect.bottom, GRect.zero, GVec2.zero,
        updateMaxRect, buttonDrawState, plainButton, Int.tmod, Int.tdiv]
      norm_num

/-- Counterexample for the grid-degeneracy claim as stated: with division
count 2, row-major direction and a zero (container-derived) element size on
both axes, on a container of width 200 and height 60 the *height* falls
back to the full container height 60, not to the container height divided
by the division count (which would be 30): the division by the count only
happens on the primary axis. -/
theorem c9_cross_axis_counterexample :
    (c9grid.arrange c9dc).rect.h = 60 ∧ (60 : ℚ) ≠ 60 / 2 := by
  constructor
  · decide
  · norm_num

/-- C9 (amended): the grid clamps a division count of one or below to one
(so the integer and rational divisions by the count never divide by zero,
and the arrangement is total), and a zero-or-negative element size on
either axis falls back to a container-derived size: the outer-padded
container dimension divided by the division count on the primary axis, the
full outer-padded container dimension on the cross axis, times the
`ContainerSize` fraction when the given size was negative; a positive
element size is used as given. -/
theorem c9_grid_degeneracy_safety : ∀ (a : ArrangerGridM) (dc : DrawCallM),
    1 ≤ a.effCount ∧
    (0 < a.elementSize.x → (a.arrange dc).rect.w = a.elementSize.x) ∧
    (a.elementSize.x ≤ 0 → (a.arrange dc).rect.w =
      (if a.direction = .row
        then (dc.rect.w - (a.outerPaddingLeft + a.outerPaddingRight)) / (a.effCount : ℚ)
        else dc.rect.w - (a.outerPaddingLeft + a.outerPaddingRight)) *
      (if a.elementSize.x < 0 then a.elementSize.x / ContainerSize else 1)) ∧
    (0 < a.elementSize.y → (a.arrange dc).rect.h = a.elementSize.y) ∧
    (a.elementSize.y ≤ 0 → (a.arrange dc).rect.h =
      (if a.direction = .column
        then (dc.rect.h - (a.outerPaddingTop + a.outerPaddingBottom)) / (a.effCount : ℚ)
        else dc.rect.h - (a.outerPaddingTop + a.outerPaddingBottom)) *
      (if a.elementSize.y < 0 then a.elementSize.y / ContainerSize else 1)) := by
  intro a dc
  refine ⟨?_, ?_, ?_, ?_, ?_⟩
  · unfold ArrangerGridM.effCount
    split
    · norm_num
    · omega
  · intro hx
    unfold ArrangerGridM.arrange
    dsimp only
    unfold ArrangerGridM.effSizeX
    rw [if_pos hx]
  · intro hx
    unfold ArrangerGridM.arrange
    dsimp only
    unfold ArrangerGridM.effSizeX
    rw [if_neg (not_lt.mpr hx)]
  · intro hy
    unfold ArrangerGridM.arrange
    dsimp only
    unfold ArrangerGridM.effSizeY
    rw [if_pos hy]
  · intro hy
    unfold ArrangerGridM.arrange
    dsimp only
    unfold ArrangerGridM.effSizeY
    rw [if_neg (not_lt.mpr hy)]

/-- Witness for `c9_grid_degeneracy_safety` at the concrete degenerate
parameters (division count 0, element size zero): the count clamps to one
and the element takes the full padded container width. -/
theorem c9_grid_degeneracy_safety_witness :
    1 ≤ (ArrangerGridM.effCount { elementCount := 0 }) ∧
    ((ArrangerGridM.mk 0 0 0 0 GVec2.zero GVec2.zero 0 false .row).arrange c9dc).rect.w
      = (if (GridDirection.row : GridDirection) = .row
          then ((200 : ℚ) - (0 + 0)) / ((ArrangerGridM.mk 0 0 0 0 GVec2.zero GVec2.zero 0 false
            .row).effCount : ℚ)
          else (200 : ℚ) - (0 + 0)) *
        (if (0 : ℚ) < 0 then (0 : ℚ) / ContainerSize else 1) := by
  constructor
  · exact (c9_grid_degeneracy_safety { elementCount := 0 } c9dc).1
  · have h := (c9_grid_degeneracy_safety
      (ArrangerGridM.mk 0 0 0 0 GVec2.zero GVec2.zero 0 false .row) c9dc).2.2.1
      (by simp [GVec2.zero])
    simpa [c9dc, GVec2.zero] using h

theorem abs_ite_zero_le {c : Bool} {x top : ℚ} (h0 : 0 ≤ top) (hx : |x| ≤ top) :
    |if c then 0 else x| ≤ top := by
  cases c
  · simpa using hx
  · simpa using h0

/-- C4 (amended): whenever the auto-scroll controller runs for a layout on
an axis (committed extent exceeding the layout's rectangle on that axis,
positive top speed), the updated scroll offset on that axis lies within
`[-(extent - size), 0]`, the updated velocity has magnitude at most
`AutoScrollSpeed`, and the velocity is zeroed whenever the update leaves
the offset unchanged (the hard-stop test the code actually performs —
rather than whenever the clamp clipped the raw value). -/
theorem c4_autoscroll_bounds : ∀ (l : LayoutM) (elem : GRect),
    (l.committedMaxRect.h > l.rect.h → 0 < l.autoScrollSpeed →
      (-(l.committedMaxRect.h - l.rect.h) ≤ (autoScrollAxisY l elem).offset.y ∧
       (autoScrollAxisY l elem).offset.y ≤ 0 ∧
       |(autoScrollAxisY l elem).autoScrollCurrentSpeed.y| ≤ l.autoScrollSpeed ∧
       ((autoScrollAxisY l elem).offset.y = l.offset.y →
         (autoScrollAxisY l elem).autoScrollCurrentSpeed.y = 0))) ∧
    (l.committedMaxRect.w > l.rect.w → 0 < l.autoScrollSpeed →
      (-(l.committedMaxRect.w - l.rect.w) ≤ (autoScrollAxisX l elem).offset.x ∧
       (autoScrollAxisX l elem).offset.x ≤ 0 ∧
       |(autoScrollAxisX l elem).autoScrollCurrentSpeed.x| ≤ l.autoScrollSpeed ∧
       ((autoScrollAxisX l elem).offset.x = l.offset.x →
         (autoScrollAxisX l elem).autoScrollCurrentSpeed.x = 0))) := by
  intro l elem
  constructor
  · intro hs htop
    unfold autoScrollAxisY
    rw [if_pos hs]
    dsimp only
    have hlo : -(l.committedMaxRect.h - l.rect.h) ≤ (0 : ℚ) := by linarith
    have htb : -l.autoScrollSpeed ≤ l.autoScrollSpeed := by linarith
    refine ⟨gclamp_lower hlo, gclamp_upper hlo, ?_, ?_⟩
    · exact abs_ite_zero_le (le_of_lt htop)
        (abs_le.mpr ⟨gclamp_lower htb, gclamp_upper htb⟩)
    · intro heq
      simp only [heq, beq_self_eq_true, if_true]
  · intro hs htop
    unfold autoScrollAxisX
    rw [if_pos hs]
    dsimp only
    have hlo : -(l.committedMaxRect.w - l.rect.w) ≤ (0 : ℚ) := by linarith
    have htb : -l.autoScrollSpeed ≤ l.autoScrollSpeed := by linarith
    refine ⟨gclamp_lower hlo, gclamp_upper hlo, ?_, ?_⟩
    · exact abs_ite_zero_le (le_of_lt htop)
        (abs_le.mpr ⟨gclamp_lower htb, gclamp_upper htb⟩)
    · intro heq
      simp only [heq, beq_self_eq_true, if_true]

/-- Counterexample for the auto-scroll claim as stated: at this concrete
state the offset clamp takes effect (the raw update -5 + -8 = -13 is
clipped to the bound -10, so the new offset differs from the old offset
plus the clamped velocity), yet the velocity is left at -8 instead of being
zeroed — the code only zeroes the velocity when the offset ends up
unchanged. -/
theorem c4_clamp_velocity_counterexample :
    (autoScrollAxisY c4Layout c4Elem).offset.y
        ≠ c4Layout.offset.y + (autoScrollAxisY c4Layout c4Elem).autoScrollCurrentSpeed.y ∧
    (autoScrollAxisY c4Layout c4Elem).autoScrollCurrentSpeed.y ≠ 0 := by
  constructor <;> decide

/-- Witness for `c4_autoscroll_bounds` at the counterexample state: the
clamped offset indeed stays inside the extent bounds and the velocity
magnitude stays within the top speed. -/
theorem c4_autoscroll_bounds_witness :
    -(c4Layout.committedMaxRect.h - c4Layout.rect.h)
        ≤ (autoScrollAxisY c4Layout c4Elem).offset.y ∧
    (autoScrollAxisY c4Layout c4Elem).offset.y ≤ 0 ∧
    |(autoScrollAxisY c4Layout c4Elem).autoScrollCurrentSpeed.y| ≤ c4Layout.autoScrollSpeed :=
  have h := (c4_autoscroll_bounds c4Layout c4Elem).1 (by decide) (by decide)
  ⟨h.1, h.2.1, h.2.2.1⟩

/-- C6 evaluated at the failing input: `a` is placed in frame 1 (flag set),
frame 2 re-declares layout `L` without placing `a`, yet at frame 2's end
the record's was-placed flag still reads true — nothing in this version of
the code ever resets `wasDrawn` to false, although the instance records
themselves are (correctly) preserved.  The claim (and an older revision of
`NewLayout`, which cleared the flags of all records when re-declaring the
layout) says the flag must read false here. -/
theorem c6_wasDrawn_never_reset :
    (instAt c6Frame1 0).wasDrawn = true ∧
    (instAt c6Frame2 0).id = "a" ∧
    (instAt c6Frame2 0).wasDrawn = true ∧
    c6Frame2.insts.length = 1 ∧
    (layoutAt c6Frame2 0).existing.order = ["a"] ∧
    c6Frame2.visible = [0] := by
  refine ⟨?_, ?_, ?_, ?_, ?_, ?_⟩ <;> decide

/-- C7 evaluated at the failing input: placing `x` twice in one frame under
the default (panic) policy raises no panic at all — `UIButton.AddTo` goes
straight to `Layout.add` and nothing on that path (or any other placement
path in this version) invokes `internalStateAccessOnce`.  The registry is
indeed left intact and the next frame's single placement of `x` reuses
record 0, and the unused check would have produced exactly the panic
message naming `x` had it been called. -/
theorem c7_reuse_check_not_invoked :
    c7Frame1.panicMsg = none ∧
    c7Frame1.uiidReusePolicy = 0 ∧
    (layoutAt c7Frame1 0).existing.order = ["x"] ∧
    c7Frame1.insts.length = 1 ∧
    c7Frame2.2 = 0 ∧
    (c7Frame2.1).insts.length = 1 ∧
    (instAt c7Frame2.1 0).wasDrawn = true ∧
    (internalStateAccessOnce (internalStateAccessOnce (newLayoutM {} "L" 0 0 100 100).1 "x")
        "x").panicMsg
      = some ("gooey: UI element ID [x] is used multiple times. " ++
          "Each UI element should have a unique ID.") := by
  refine ⟨?_, ?_, ?_, ?_, ?_, ?_, ?_, ?_⟩ <;> decide

/-- C8: with three horizontally arranged placed, highlightable widgets and
no explicit navigation order, starting focus on the rightmost `C`, a right
input at frame end focuses the leftmost `A` (no candidate's center lies
strictly past `C`'s right edge — last conjunct — so the Y-overlap fallback
wraps to the element at the opposite boundary), and a next input likewise
focuses `A` via the ordinal reading-order step with wrapping. -/
theorem c8_focus_wraparound :
    (endNav c8State).highlighted = some 0 ∧
    (endNav { c8State with queuedInput := queuedInputNext }).highlighted = some 0 ∧
    (instAt c8State 0).id = "A" ∧
    (∀ e ∈ visibleHighlightableElements c8State, e ≠ 2 →
      ¬((instAt c8State 2).currentRect.right < (instAt c8State e).currentRect.center.x)) := by
  refine ⟨?_, ?_, ?_, ?_⟩ <;> decide

theorem pickFromCustomOrder_go (st : GState) (l : LayoutM) :
    ∀ (order : List String) (init : Option ℕ),
      order.foldl (fun acc k =>
        match l.existing.lookup k with
        | some r => if eligible st r then some r else acc
        | none => acc) init
      = match order.reverse.findSome? (fun k =>
          match l.existing.lookup k with
          | some r => if eligible st r then some r else none
          | none => none) with
        | some b => some b
        | none => init
  | [], init => rfl
  | a :: t, init => by
      rw [List.foldl_cons, pickFromCustomOrder_go st l t, List.reverse_cons,
        List.findSome?_append]
      cases ht : t.reverse.findSome? (fun k =>
          match l.existing.lookup k with
          | some r => if eligible st r then some r else none
          | none => none) with
      | some b => simp [ht, Option.or]
      | none =>
          cases ha : l.existing.lookup a with
          | none => simp [List.findSome?_cons, ha, Option.or]
          | some r =>
              by_cases he : eligible st r <;>
                simp [List.findSome?_cons, ha, he, Option.or]

theorem pickFromCustomOrder_eq_reverse (st : GState) (l : LayoutM) :
    pickFromCustomOrder st l
      = l.customHighlightingOrder.reverse.findSome? (fun k =>
          match l.existing.lookup k with
          | some r => if eligible st r then some r else none
          | none => none) := by
  unfold pickFromCustomOrder
  rw [pickFromCustomOrder_go st l l.customHighlightingOrder none]
  cases l.customHighlightingOrder.reverse.findSome? (fun k =>
    match l.existing.lookup k with
    | some r => if eligible st r then some r else none
    | none => none) <;> rfl

theorem pickFromInsertionOrder_eq_find (st : GState) (l : LayoutM) :
    pickFromInsertionOrder st l
      = (l.existing.order.find? (fun k =>
          match l.existing.lookup k with
          | some r => eligible st r
          | none => false)).bind l.existing.lookup := by
  unfold pickFromInsertionOrder
  induction l.existing.order with
  | nil => rfl
  | cons k t ih =>
      rw [List.findSome?_cons, List.find?_cons]
      cases hk : l.existing.lookup k with
      | none => simpa [hk] using ih
      | some r =>
          by_cases he : eligible st r
          · simp [hk, he]
          · simpa [hk, he] using ih

theorem defaultPickCode_eq_spec (st : GState) : defaultPickCode st = defaultPickSpec st := by
  unfold defaultPickCode defaultPickSpec
  congr 1
  funext li
  dsimp only
  rw [pickFromInsertionOrder_eq_find st (layoutAt st li)]
  by_cases hlen : (layoutAt st li).customHighlightingOrder.length > 0
  · rw [if_pos hlen, pickFromCustomOrder_eq_reverse]
  · rw [if_neg hlen]
    have h0 : (layoutAt st li).customHighlightingOrder = [] := by
      cases h : (layoutAt st li).customHighlightingOrder with
      | nil => rfl
      | cons a t => rw [h] at hlen; simp at hlen
    rw [h0]
    rfl

/-- C5 (amended): at frame end in keyboard modality, whenever there is no
focused instance, or the focused instance's layout is not visible, or the
focused instance was not placed this frame (its highlightability is not
re-checked by this trigger), the default pick scans the visible layouts in
their visible order and selects the instance of the *last* identity in the
layout's explicit navigation order that is currently placed and
highlightable, otherwise the first placed, highlightable instance in
registry insertion order; when no layout yields a pick the focus is left
unchanged. -/
theorem c5_default_pick_amended (st : GState)
    (h1 : focusLost st = true)
    (h2 : st.queuedInput ≠ 0 ∨ st.noDefaultHighlightOption = false)
    (h3 : st.usingMouse = false) :
    (endNav st).highlighted =
      match defaultPickSpec st with
      | some r => some r
      | none => st.highlighted := by
  unfold endNav
  dsimp only
  have hcond : (focusLost { st with begun := false } &&
      (st.queuedInput != 0 || !st.noDefaultHighlightOption) && !st.usingMouse) = true := by
    have hfl : focusLost { st with begun := false } = focusLost st := rfl
    rw [hfl, h1, h3]
    rcases h2 with h | h
    · simp [h]
    · simp [h]
  rw [if_pos hcond]
  have hdc : defaultPickCode { st with begun := false } = defaultPickSpec st := by
    have h1 : defaultPickCode { st with begun := false } = defaultPickCode st := rfl
    rw [h1, defaultPickCode_eq_spec]
  rw [hdc]
  cases defaultPickSpec st <;> rfl

/-- Counterexample for the default-pick claim as stated, in two parts.
First, with explicit navigation order `[a, b]` and both instances placed
and highlightable, the code focuses instance 1 (`b`), the *last* eligible
entry of the order, not the first (`a`, instance 0, which is eligible too —
the scan assigns without breaking).  Second, a focused instance that is
still placed and visible but no longer highlightable does *not* trigger the
default pick at all: focus simply stays on the non-highlightable instance
0 even though instance 1 is placed and highlightable. -/
theorem c5_default_pick_counterexample :
    (endNav c5State).highlighted = some 1 ∧
    (instAt c5State 1).id = "b" ∧
    (instAt c5State 0).id = "a" ∧
    (layoutAt c5State 0).customHighlightingOrder = ["a", "b"] ∧
    eligible c5State 0 = true ∧
    (endNav c5FocusState).highlighted = some 0 ∧
    eligible c5FocusState 0 = false ∧
    eligible c5FocusState 1 = true := by
  refine ⟨?_, ?_, ?_, ?_, ?_, ?_, ?_, ?_⟩ <;> decide

/-- Witness for `c5_default_pick_amended` at the concrete custom-order
state. -/
theorem c5_default_pick_amended_witness :
    (endNav c5State).highlighted =
      match defaultPickSpec c5State with
      | some r => some r
      | none => c5State.highlighted :=
  c5_default_pick_amended c5State (by decide) (Or.inr (by decide)) (by decide)

theorem find?_min_of_sorted {key : ℕ → ℚ} {p : ℕ → Bool} :
    ∀ {l : List ℕ}, l.Sorted (fun a b => key a ≤ key b) → ∀ {c : ℕ}, l.find? p = some c →
      ∀ e ∈ l, p e = true → key c ≤ key e
  | [], _, _, h, _, he, _ => by cases he
  | a :: t, hs, c, hc, e, he, hpe => by
      rw [List.sorted_cons] at hs
      by_cases hpa : p a
      · rw [List.find?_cons_of_pos t hpa] at hc
        cases hc
        rcases List.mem_cons.mp he with rfl | het
        · exact le_refl _
        · exact hs.1 e het
      · rw [List.find?_cons_of_neg t hpa] at hc
        rcases List.mem_cons.mp he with rfl | het
        · exact absurd hpe hpa
        · exact find?_min_of_sorted hs.2 hc e het hpe

/-- C3: at frame-end navigation with a queued right input, for every
focused instance `f` that was placed this frame in a visible layout with no
explicit navigation order, if at least one other candidate (placed,
highlightable, in a visible layout) has center strictly past `f`'s right
edge, then the newly focused instance has center strictly past `f`'s right
edge, is never `f` itself (hence never an instance whose center lies to
`f`'s left of that edge), and among all such qualifying candidates it
minimises the Euclidean distance from its center to the point one unit past
`f`'s right edge at `f`'s center height (stated via squared distances,
which order identically). -/
theorem c3_right_navigation (st : GState) (f : ℕ)
    (hf : st.highlighted = some f)
    (hq : st.queuedInput = queuedInputRight)
    (hd : (instAt st f).wasDrawn = true)
    (hv : layoutVisible st (instAt st f).layoutIdx = true)
    (hco : (layoutAt st (instAt st f).layoutIdx).customHighlightingOrder = [])
    (hex : ∃ e ∈ visibleHighlightableElements st, e ≠ f ∧
        (instAt st f).currentRect.right < (instAt st e).currentRect.center.x) :
    ∃ c, (endNav st).highlighted = some c ∧ c ≠ f ∧
      (instAt st f).currentRect.right < (instAt st c).currentRect.center.x ∧
      ∀ e ∈ visibleHighlightableElements st, e ≠ f →
        (instAt st f).currentRect.right < (instAt st e).currentRect.center.x →
        dSq st (rightTarget (instAt st f).currentRect) c
          ≤ dSq st (rightTarget (instAt st f).currentRect) e := by
  obtain ⟨e0, he0mem, he0ne, he0r⟩ := hex
  have he0sorted : e0 ∈ sortByDistance st (rightTarget (instAt st f).currentRect)
      (visibleHighlightableElements st) := by
    unfold sortByDistance
    exact (List.mem_insertionSort _).mpr he0mem
  have hpe0 : (fun e => e != f &&
      decide ((instAt st e).currentRect.center.x > (instAt st f).currentRect.right)) e0
        = true := by
    simp only [Bool.and_eq_true, bne_iff_ne, decide_eq_true_eq]
    exact ⟨he0ne, he0r⟩
  have hsome : ∃ c, primaryRight st f (instAt st f).currentRect
      (sortByDistance st (rightTarget (instAt st f).currentRect)
        (visibleHighlightableElements st)) = some c := by
    unfold primaryRight
    rcases h : (sortByDistance st (rightTarget (instAt st f).currentRect)
        (visibleHighlightableElements st)).find? (fun e => e != f &&
          decide ((instAt st e).currentRect.center.x > (instAt st f).currentRect.right)) with
      _ | c
    · exact absurd hpe0 (by simpa using List.find?_eq_none.mp h e0 he0sorted)
    · exact ⟨c, rfl⟩
  obtain ⟨c, hc⟩ := hsome
  have hc2 : (sortByDistance st (rightTarget (instAt st f).currentRect)
      (visibleHighlightableElements st)).find? (fun e => e != f &&
        decide ((instAt st e).currentRect.center.x > (instAt st f).currentRect.right))
      = some c := hc
  have hpc := List.find?_some hc2
  have hcne : c ≠ f := by
    have := (Bool.and_eq_true _ _).mp hpc
    simpa [bne_iff_ne] using this.1
  have hcr : (instAt st f).currentRect.right < (instAt st c).currentRect.center.x := by
    have := (Bool.and_eq_true _ _).mp hpc
    simpa using this.2
  have hcmem : c ∈ visibleHighlightableElements st := by
    have hm := List.mem_of_find?_eq_some hc2
    unfold sortByDistance at hm
    exact (List.mem_insertionSort _).mp hm
  have hsorted : (sortByDistance st (rightTarget (instAt st f).currentRect)
      (visibleHighlightableElements st)).Sorted
      (fun a b => dSq st (rightTarget (instAt st f).currentRect) a
        ≤ dSq st (rightTarget (instAt st f).currentRect) b) := by
    unfold sortByDistance
    haveI : IsTotal ℕ (fun a b => dSq st (rightTarget (instAt st f).currentRect) a
        ≤ dSq st (rightTarget (instAt st f).currentRect) b) := ⟨fun a b => le_total _ _⟩
    haveI : IsTrans ℕ (fun a b => dSq st (rightTarget (instAt st f).currentRect) a
        ≤ dSq st (rightTarget (instAt st f).currentRect) b) :=
      ⟨fun a b c2 h1 h2 => le_trans h1 h2⟩
    exact List.sorted_insertionSort _ _
  have hcne : c ≠ f := by
    have h2 := (Bool.and_eq_true _ _).mp hpc
    simpa [bne_iff_ne] using h2.1
  have hcr : (instAt st f).currentRect.right < (instAt st c).currentRect.center.x := by
    have h2 := (Bool.and_eq_true _ _).mp hpc
    simpa using h2.2
  have hmin : ∀ e ∈ visibleHighlightableElements st, e ≠ f →
      (instAt st f).currentRect.right < (instAt st e).currentRect.center.x →
      dSq st (rightTarget (instAt st f).currentRect) c
        ≤ dSq st (rightTarget (instAt st f).currentRect) e := by
    intro e hemem hene her
    refine find?_min_of_sorted hsorted hc2 e ?_ ?_
    · unfold sortByDistance
      exact (List.mem_insertionSort _).mpr hemem
    · simp only [Bool.and_eq_true, bne_iff_ne, decide_eq_true_eq]
      exact ⟨hene, her⟩
  refine ⟨c, ?_, hcne, hcr, hmin⟩
  have hfl : focusLost st = false := by
    unfold focusLost
    rw [hf]
    simp [hv, hd]
  unfold endNav navClosest
  dsimp only
  simp only [show focusLost { st with begun := false } = focusLost st from rfl,
    show ∀ x, instAt { st with begun := false } x = instAt st x from fun _ => rfl,
    show ∀ li, layoutAt { st with begun := false } li = layoutAt st li from fun _ => rfl,
    show visibleHighlightableElements { st with begun := false }
      = visibleHighlightableElements st from rfl,
    show ∀ t l2, sortByDistance { st with begun := false } t l2 = sortByDistance st t l2
      from fun _ _ => rfl,
    show ∀ a b l2, primaryRight { st with begun := false } a b l2 = primaryRight st a b l2
      from fun _ _ _ => rfl,
    show ∀ a b l2, fallbackRight { st with begun := false } a b l2 = fallbackRight st a b l2
      from fun _ _ _ => rfl]
  split
  case isTrue hct => exact absurd hct (by rw [hfl]; simp)
  case isFalse hcf =>
    rw [hf]
    dsimp only
    rw [if_pos (show (st.queuedInput != queuedInputSelect) = true by rw [hq]; decide)]
    rw [hco]
    rw [if_neg (by simp)]
    dsimp only
    rw [hq]
    rw [if_pos (show (queuedInputRight == queuedInputRight) = true by decide)]
    rw [hc]

/-- Witness for `c3_right_navigation`: focus on the leftmost of three
buttons with a queued right input; instance 1 qualifies as a candidate to
the right. -/
theorem c3_right_navigation_witness :
    ∃ c, (endNav c3State).highlighted = some c ∧ c ≠ 0 ∧
      (instAt c3State 0).currentRect.right < (instAt c3State c).currentRect.center.x ∧
      ∀ e ∈ visibleHighlightableElements c3State, e ≠ 0 →
        (instAt c3State 0).currentRect.right < (instAt c3State e).currentRect.center.x →
        dSq c3State (rightTarget (instAt c3State 0).currentRect) c
          ≤ dSq c3State (rightTarget (instAt c3State 0).currentRect) e :=
  c3_right_navigation c3State 0 (by decide) (by decide) (by decide) (by decide) (by decide)
    ⟨1, by decide, by decide, by decide⟩

theorem getD_mem_of_lt {l : List ℕ} {n : ℕ} (h : n < l.length) (d : ℕ) : l.getD n d ∈ l := by
  rw [List.getD_eq_getElem?_getD, List.getElem?_eq_getElem h]
  exact List.getElem_mem h

theorem foldl_pick_or {α : Type} (P : ℕ → Prop) (g : Option ℕ → α → Option ℕ) :
    ∀ (l : List α), (∀ acc a, a ∈ l → ∀ r, g acc a = some r → acc = some r ∨ P r) →
      ∀ (init : Option ℕ) (r : ℕ), l.foldl g init = some r → init = some r ∨ P r
  | [], _, _, _, h => Or.inl h
  | a :: t, hg, init, r, h => by
      rw [List.foldl_cons] at h
      rcases foldl_pick_or P g t (fun acc b hb => hg acc b (List.mem_cons_of_mem a hb))
          (g init a) r h with h1 | h2
      · exact hg init a (List.mem_cons_self a t) r h1
      · exact Or.inr h2

theorem eligible_of_mem_cands {st : GState} {r : ℕ}
    (h : r ∈ visibleHighlightableElements st) : eligible st r = true := by
  unfold visibleHighlightableElements at h
  rw [List.mem_flatten] at h
  obtain ⟨l2, hl2, hrl⟩ := h
  rw [List.mem_map] at hl2
  obtain ⟨li, _, rfl⟩ := hl2
  unfold layoutEligibleRefs at hrl
  rw [List.mem_filterMap] at hrl
  obtain ⟨k, _, hk⟩ := hrl
  rcases hlk : (layoutAt st li).existing.lookup k with _ | r0 <;> rw [hlk] at hk <;>
    dsimp only at hk
  · cases hk
  · by_cases he : eligible st r0 = true
    · rw [if_pos he] at hk
      cases hk
      exact he
    · rw [if_neg he] at hk
      cases hk

theorem eligible_of_customPick {st : GState} {l : LayoutM} {r : ℕ}
    (h : pickFromCustomOrder st l = some r) : eligible st r = true := by
  rw [pickFromCustomOrder_eq_reverse] at h
  obtain ⟨k, _, hk⟩ := List.exists_of_findSome?_eq_some h
  rcases hlk : l.existing.lookup k with _ | r0 <;> rw [hlk] at hk <;> dsimp only at hk
  · cases hk
  · by_cases he : eligible st r0 = true
    · rw [if_pos he] at hk
      cases hk
      exact he
    · rw [if_neg he] at hk
      cases hk

theorem eligible_of_insertionPick {st : GState} {l : LayoutM} {r : ℕ}
    (h : pickFromInsertionOrder st l = some r) : eligible st r = true := by
  unfold pickFromInsertionOrder at h
  obtain ⟨k, _, hk⟩ := List.exists_of_findSome?_eq_some h
  rcases hlk : l.existing.lookup k with _ | r0 <;> rw [hlk] at hk <;> dsimp only at hk
  · cases hk
  · by_cases he : eligible st r0 = true
    · rw [if_pos he] at hk
      cases hk
      exact he
    · rw [if_neg he] at hk
      cases hk

theorem eligible_of_defaultPick {st : GState} {r : ℕ}
    (h : defaultPickCode st = some r) : eligible st r = true := by
  unfold defaultPickCode at h
  obtain ⟨li, _, hli⟩ := List.exists_of_findSome?_eq_some h
  dsimp only at hli
  rcases hc : (if (layoutAt st li).customHighlightingOrder.length > 0
      then pickFromCustomOrder st (layoutAt st li) else none) with _ | p <;> rw [hc] at hli <;>
    dsimp only at hli
  · exact eligible_of_insertionPick hli
  · cases hli
    by_cases hlen : (layoutAt st li).customHighlightingOrder.length > 0
    · rw [if_pos hlen] at hc
      exact eligible_of_customPick hc
    · rw [if_neg hlen] at hc
      cases hc

theorem fallback_mem_generic (p : ℕ → Prop) [DecidablePred p] (better : ℕ → ℕ → Prop)
    [DecidableRel better] (f : ℕ) (l : List ℕ) (c : ℕ)
    (h : l.foldl (fun acc e =>
        if e = f then acc
        else if p e then
          match acc with
          | none => some e
          | some c0 => if better e c0 then some e else acc
        else acc) none = some c) : c ∈ l := by
  have hstep : ∀ (acc : Option ℕ) (e : ℕ), e ∈ l → ∀ r,
      (if e = f then acc
       else if p e then
         match acc with
         | none => some e
         | some c0 => if better e c0 then some e else acc
       else acc) = some r → acc = some r ∨ r ∈ l := by
    intro acc e he r hg
    by_cases hef : e = f
    · rw [if_pos hef] at hg
      exact Or.inl hg
    · rw [if_neg hef] at hg
      by_cases hp : p e
      · rw [if_pos hp] at hg
        rcases acc with _ | c0 <;> dsimp only at hg
        · cases hg
          exact Or.inr he
        · by_cases hb : better e c0
          · rw [if_pos hb] at hg
            cases hg
            exact Or.inr he
          · rw [if_neg hb] at hg
            exact Or.inl hg
      · rw [if_neg hp] at hg
        exact Or.inl hg
  rcases foldl_pick_or (· ∈ l) _ l hstep none c h with h1 | h2
  · cases h1
  · exact h2

theorem ordinalPick_mem {sorted : List ℕ} {f c : ℕ} {fwd : Bool}
    (h : ordinalPick sorted f fwd = some c) : c ∈ sorted := by
  unfold ordinalPick at h
  have hstep : ∀ (acc : Option ℕ) (pr : ℕ × ℕ), pr ∈ sorted.enum → ∀ r,
      (if pr.2 = f then
        if fwd then
          if pr.1 < sorted.length - 1 then some (sorted.getD (pr.1 + 1) 0)
          else some (sorted.getD 0 0)
        else
          if pr.1 > 0 then some (sorted.getD (pr.1 - 1) 0)
          else some (sorted.getD (sorted.length - 1) 0)
       else acc) = some r → acc = some r ∨ r ∈ sorted := by
    intro acc pr hpr r hg
    by_cases hef : pr.2 = f
    · rw [if_pos hef] at hg
      have hi : pr.1 < sorted.length := by
        have hp2 : (pr.1, pr.2) ∈ sorted.enum := by simpa using hpr
        have hge := List.mk_mem_enum_iff_getElem?.mp hp2
        exact (List.getElem?_eq_some.mp hge).1
      right
      rcases fwd with _ | _
      · rw [if_neg (by simp)] at hg
        by_cases hlt : pr.1 > 0
        · rw [if_pos hlt] at hg
          cases hg
          exact getD_mem_of_lt (by omega) 0
        · rw [if_neg hlt] at hg
          cases hg
          exact getD_mem_of_lt (by omega) 0
      · rw [if_pos rfl] at hg
        by_cases hlt : pr.1 < sorted.length - 1
        · rw [if_pos hlt] at hg
          cases hg
          exact getD_mem_of_lt (by omega) 0
        · rw [if_neg hlt] at hg
          cases hg
          exact getD_mem_of_lt (by omega) 0
    · rw [if_neg hef] at hg
      exact Or.inl hg
  rcases foldl_pick_or (· ∈ sorted) _ sorted.enum hstep none c h with h1 | h2
  · cases h1
  · exact h2

theorem fallbackRight_mem {st : GState} {f : ℕ} {cur : GRect} {l : List ℕ} {c : ℕ}
    (h : fallbackRight st f cur l = some c) : c ∈ l :=
  fallback_mem_generic (fun e => (instAt st e).currentRect.overlappingAxisY cur > 0)
    (fun e c0 => (instAt st e).currentRect.x < (instAt st c0).currentRect.x) f l c h

theorem fallbackLeft_mem {st : GState} {f : ℕ} {cur : GRect} {l : List ℕ} {c : ℕ}
    (h : fallbackLeft st f cur l = some c) : c ∈ l :=
  fallback_mem_generic (fun e => (instAt st e).currentRect.overlappingAxisY cur > 0)
    (fun e c0 => (instAt st e).currentRect.x > (instAt st c0).currentRect.x) f l c h

theorem fallbackUp_mem {st : GState} {f : ℕ} {cur : GRect} {l : List ℕ} {c : ℕ}
    (h : fallbackUp st f cur l = some c) : c ∈ l :=
  fallback_mem_generic (fun e => (instAt st e).currentRect.overlappingAxisX cur > 0)
    (fun e c0 => (instAt st e).currentRect.y > (instAt st c0).currentRect.y) f l c h

theorem fallbackDown_mem {st : GState} {f : ℕ} {cur : GRect} {l : List ℕ} {c : ℕ}
    (h : fallbackDown st f cur l = some c) : c ∈ l :=
  fallback_mem_generic (fun e => (instAt st e).currentRect.overlappingAxisX cur > 0)
    (fun e c0 => (instAt st e).currentRect.y < (instAt st c0).currentRect.y) f l c h

theorem navClosest_mem {st : GState} {f : ℕ} {cur : GRect} {cands : List ℕ} {c : ℕ}
    (h : navClosest st f cur cands = some c) : c ∈ cands := by
  unfold navClosest at h
  dsimp only at h
  split at h
  · rcases hp : primaryRight st f cur (sortByDistance st (rightTarget cur) cands)
        with _ | c2 <;> rw [hp] at h <;> dsimp only at h
    · exact (List.mem_insertionSort _).mp (fallbackRight_mem h)
    · cases h
      exact (List.mem_insertionSort _).mp (List.mem_of_find?_eq_some hp)
  · split at h
    · rcases hp : primaryLeft st f cur
          (sortByDistance st { cur.center with x := cur.x - 1 } cands)
          with _ | c2 <;> rw [hp] at h <;> dsimp only at h
      · exact (List.mem_insertionSort _).mp (fallbackLeft_mem h)
      · cases h
        exact (List.mem_insertionSort _).mp (List.mem_of_find?_eq_some hp)
    · split at h
      · rcases hp : primaryUp st f cur
            (sortByDistance st { cur.center with y := cur.y - 1 } cands)
            with _ | c2 <;> rw [hp] at h <;> dsimp only at h
        · exact (List.mem_insertionSort _).mp (fallbackUp_mem h)
        · cases h
          exact (List.mem_insertionSort _).mp (List.mem_of_find?_eq_some hp)
      · split at h
        · rcases hp : primaryDown st f cur
              (sortByDistance st { cur.center with y := cur.bottom + 1 } cands)
              with _ | c2 <;> rw [hp] at h <;> dsimp only at h
          · exact (List.mem_insertionSort _).mp (fallbackDown_mem h)
          · cases h
            exact (List.mem_insertionSort _).mp (List.mem_of_find?_eq_some hp)
        · split at h
          · exact (List.mem_insertionSort _).mp (ordinalPick_mem h)
          · split at h
            · exact (List.mem_insertionSort _).mp (ordinalPick_mem h)
            · cases h

theorem endNav_highlighted_cases (st : GState) :
    (endNav st).highlighted = st.highlighted ∨
    (∃ r, (endNav st).highlighted = some r ∧ eligible st r = true) := by
  unfold endNav
  dsimp only
  simp only [show focusLost { st with begun := false } = focusLost st from rfl,
    show ∀ x, instAt { st with begun := false } x = instAt st x from fun _ => rfl,
    show ∀ li, layoutAt { st with begun := false } li = layoutAt st li from fun _ => rfl,
    show visibleHighlightableElements { st with begun := false }
      = visibleHighlightableElements st from rfl,
    show defaultPickCode { st with begun := false } = defaultPickCode st from rfl,
    show ∀ f cur cands, navClosest { st with begun := false } f cur cands
      = navClosest st f cur cands from fun _ _ _ => rfl]
  split
  · rcases hdp : defaultPickCode st with _ | p <;> dsimp only
    · exact Or.inl rfl
    · exact Or.inr ⟨p, rfl, eligible_of_defaultPick hdp⟩
  · rcases hh : st.highlighted with _ | f <;> dsimp only
    · exact Or.inl rfl
    · split
      · rcases hvc : (if (layoutAt st (instAt st f).layoutIdx).customHighlightingOrder.length > 0
            then
              if (customNavTarget (layoutAt st (instAt st f).layoutIdx) st.queuedInput
                  (instAt st f).id != "") = true then
                List.find? (fun e => (instAt st e).id ==
                    customNavTarget (layoutAt st (instAt st f).layoutIdx) st.queuedInput
                      (instAt st f).id)
                  (visibleHighlightableElements st)
              else none
            else none) with _ | e2 <;> dsimp only
        · rcases hnc : navClosest st f (instAt st f).currentRect
              (visibleHighlightableElements st) with _ | cc <;> dsimp only
          · exact Or.inl rfl
          · exact Or.inr ⟨cc, rfl, eligible_of_mem_cands (navClosest_mem hnc)⟩
        · refine Or.inr ⟨e2, rfl, ?_⟩
          by_cases h1 : (layoutAt st (instAt st f).layoutIdx).customHighlightingOrder.length > 0
          · rw [if_pos h1] at hvc
            by_cases h2 : (customNavTarget (layoutAt st (instAt st f).layoutIdx) st.queuedInput
                (instAt st f).id != "") = true
            · rw [if_pos h2] at hvc
              exact eligible_of_mem_cands (List.mem_of_find?_eq_some hvc)
            · rw [if_neg h2] at hvc
              cases hvc
          · rw [if_neg h1] at hvc
            cases hvc
      · exact Or.inl rfl

/-- C10: whenever frame-end navigation (`End`) changes which element is
highlighted — via the default pick, the custom-order step, the directional
spatial search, its perpendicular-overlap fallback, or the ordinal step —
the newly assigned element was placed this frame (`wasDrawn`) and is
highlightable; `End` never assigns focus to an undrawn or
non-highlightable instance. -/
theorem c10_focus_eligible (st : GState) (r : ℕ)
    (hch : (endNav st).highlighted ≠ st.highlighted)
    (hr : (endNav st).highlighted = some r) :
    (instAt st r).drawable.hl = true ∧ (instAt st r).wasDrawn = true := by
  rcases endNav_highlighted_cases st with h | ⟨e, he, helig⟩
  · exact absurd h hch
  · rw [hr] at he
    cases he
    exact ⟨(Bool.and_eq_true _ _ ▸ helig).1, (Bool.and_eq_true _ _ ▸ helig).2⟩

theorem c10_focus_eligible_witness :
    (instAt c10State 0).drawable.hl = true ∧ (instAt c10State 0).wasDrawn = true :=
  c10_focus_eligible c10State 0 (by decide) (by decide)
